import Mathlib

set_option linter.unusedVariables false

/-!
Verification development for the monzo-fs routing core.

The definitions below are a shallow embedding of the Python sources:

* `src/monzo_fs/diazed.py` — pattern compilation (`_DiazedFileSystem.on`),
  dispatch (`_DiazedFileSystem.route`), result coercion (`_ensure_obj`,
  `Dir`, `File`), the filesystem adapter operations (`getattr`, `read`,
  `open`, the mutating operations), and the handle counter.
* `src/mondofs/decorators.py` — the TTL memoizing `cache` decorator.

Conventions used throughout:

* Python strings and byte strings are `List Char`.
* Machine-independent times (`datetime.datetime.now()` values) are `Nat`;
  a `datetime.timedelta` is a `Nat` added to a time.
* A Python function that may raise is modelled as returning an explicit
  error value; exceptions of the filesystem adapter are the constructors
  of `FuseErr`.
-/

/-- A token of a compiled route pattern.  `_DiazedFileSystem.on` builds the
regex `'^' + re.sub('<[^>]*>', '([^/]*)', route) + '$'`: every `<name>`
placeholder becomes the capturing group `([^/]*)` (token `hole`), and every
other character of the template is passed through into the regex verbatim
(token `lit c`). -/
inductive Tok where
  | lit : Char → Tok
  | hole : Tok
deriving DecidableEq, Repr

/-- Semantics of one verbatim template character inside the compiled regex.
Template characters are not regex-escaped by the source, so `'.'` is the
regex wildcard (any character except a newline); the repository's templates
contain no other regex metacharacter, and none other is modelled. -/
def litMatch (c p : Char) : Bool :=
  if c = '.' then p ≠ '\n' else c = p

/-- One step of scanning a template, mirroring how
`re.sub('<[^>]*>', '([^/]*)', route)` rewrites the template: outside a
placeholder a `'<'` opens one, any other character is emitted verbatim;
inside a placeholder a `'>'` closes it (emitting `hole`), any other
character is swallowed.  The accumulator keeps the emitted tokens in
reverse; the `Option` is the pending placeholder body (in reverse). -/
def tmplStep : List Tok × Option (List Char) → Char → List Tok × Option (List Char)
  | (acc, none), c => if c = '<' then (acc, some []) else (Tok.lit c :: acc, none)
  | (acc, some pend), c => if c = '>' then (Tok.hole :: acc, none) else (acc, some (c :: pend))

/-- Compile a route template into tokens, as `_DiazedFileSystem.on` does via
`re.sub('<[^>]*>', '([^/]*)', route)`.  A trailing `'<'` that is never
closed matches no `<[^>]*>` occurrence, so `re.sub` leaves those characters
verbatim; the second branch restores them as literals. -/
def compileTemplate (s : List Char) : List Tok :=
  match s.foldl tmplStep ([], none) with
  | (acc, none) => acc.reverse
  | (acc, some pend) => acc.reverse ++ ('<' :: pend.reverse).map Tok.lit

/-- Number of capture groups of a compiled pattern, i.e. the number of
`<name>` placeholders of the template (`match.groups()` has this length). -/
def holeCount : List Tok → Nat
  | [] => 0
  | Tok.hole :: ts => holeCount ts + 1
  | Tok.lit _ :: ts => holeCount ts

/-- Candidate (capture, remainder) splits for the greedy group `([^/]*)`,
longest capture first — exactly the order in which a backtracking regex
engine tries the greedy zero-or-more group. -/
def holeSplits (ps : List Char) : List (List Char × List Char) :=
  ((List.range ((ps.takeWhile fun c => c != '/').length + 1)).reverse).map
    fun k => (ps.take k, ps.drop k)

/-- Anchored match of a compiled pattern against a whole path, returning the
list of capture substrings in order, or `none` when the path does not
match.  This is `route.match(path)` followed by `match.groups()` in
`_DiazedFileSystem.route` (the pattern is anchored `'^'..'$'`, so the whole
path must be consumed). -/
def reMatch : List Tok → List Char → Option (List (List Char))
  | [], [] => some []
  | [], _ :: _ => none
  | Tok.lit _ :: _, [] => none
  | Tok.lit c :: ts, p :: ps => if litMatch c p then reMatch ts ps else none
  | Tok.hole :: ts, ps =>
      (holeSplits ps).findSome? fun pr =>
        (reMatch ts pr.2).map fun gs => pr.1 :: gs

/-- Declarative (non-algorithmic) matching semantics of a compiled pattern:
`Caps toks ps gs` holds when the whole path `ps` decomposes, left to right,
into the tokens of `toks`, each `hole` consuming a (possibly empty) run of
non-`'/'` characters, and `gs` lists the holes' captures in order. -/
inductive Caps : List Tok → List Char → List (List Char) → Prop where
  | nil : Caps [] [] []
  | lit {c p : Char} {ts : List Tok} {ps : List Char} {gs : List (List Char)} :
      litMatch c p → Caps ts ps gs → Caps (Tok.lit c :: ts) (p :: ps) gs
  | hole {ts : List Tok} {pre rest : List Char} {gs : List (List Char)} :
      (∀ c ∈ pre, c ≠ '/') → Caps ts rest gs →
      Caps (Tok.hole :: ts) (pre ++ rest) (pre :: gs)

/-- A Python handler function as the router sees it: Python calls
`callback(*match.groups())` succeed when the number of positional arguments
lies between the count of non-defaulted parameters (`minArity`) and the
count of all parameters (`maxArity`); otherwise Python raises `TypeError`.
`fn` is the handler body on the capture substrings. -/
structure Handler (α : Type) where
  minArity : Nat
  maxArity : Nat
  fn : List (List Char) → α

/-- Calling a handler with positional arguments; `none` is a `TypeError`
raised by the call itself (wrong number of arguments). -/
def callHandler {α : Type} (h : Handler α) (args : List (List Char)) : Option α :=
  if h.minArity ≤ args.length ∧ args.length ≤ h.maxArity then some (h.fn args) else none

/-- The scanning loop of `_DiazedFileSystem.route`: try each registered
`(pattern, callback)` pair in list (= registration) order; on the first
pattern whose anchored regex matches the whole path, call the callback on
the capture substrings and return.  Outer `none` is
`_UnableToRouteException` (no route matched); inner `none` is a `TypeError`
escaping from the first matching callback. -/
def routeScan {α : Type} (rs : List (List Tok × Handler α)) (path : List Char) :
    Option (Option α) :=
  rs.findSome? fun r => (reMatch r.1 path).map fun gs => callHandler r.2 gs

/-- Python values that flow through this program (Python 2, so `bytes` is
`str`).  `pyDir`/`pyFile` are instances of the classes `diazed.Dir` and
`diazed.File` (`Dir.__init__` has already run `list(contents)`;
`File.__init__` has already run `bytes(contents)`).  A `pySet`'s stored
list records its iteration order, which Python leaves unspecified. -/
inductive PyVal where
  | pyStr : List Char → PyVal
  | pyInt : Int → PyVal
  | pyList : List PyVal → PyVal
  | pyTuple : List PyVal → PyVal
  | pySet : List PyVal → PyVal
  | pyDir : List PyVal → PyVal
  | pyFile : List Char → PyVal

/-- Python 2 `bytes(x)`, i.e. `str(x)`, for the scalar values that can
reach `File.__init__` from `_ensure_obj` (collections are wrapped as `Dir`
before reaching it, so only these branches are exercised; the collection
branches return the unexercised placeholder `[]`). -/
def pyBytes : PyVal → List Char
  | .pyStr s => s
  | .pyInt n => (toString n).data
  | _ => []

/-- The coerced result type: `diazed.Dir` (ordered child list) or
`diazed.File` (byte payload).  `Dir` stores contents exactly as given —
`list(contents)` — without converting items to strings. -/
inductive Node where
  | dir : List PyVal → Node
  | file : List Char → Node

/-- A stat attribute dictionary as built by `Dir.__init__`/`File.__init__`. -/
structure Attrs where
  st_mode : Nat
  st_size : Option Nat
deriving DecidableEq, Repr

/-- The synthesized attributes: `Dir` gets `stat.S_IFDIR | 0o555` and no
size; `File` gets `stat.S_IFREG | 0o444` and `st_size = len(contents)`.
(`Dir.__init__` also accepts keyword attribute overrides; no caller in the
repository passes any, so they are not modelled.) -/
def Node.attrs : Node → Attrs
  | .dir _ => { st_mode := 0o040555, st_size := none }
  | .file s => { st_mode := 0o100444, st_size := some s.length }

/-- The `.contents` attribute read by the adapter operations. -/
def Node.contents : Node → PyVal
  | .dir xs => .pyList xs
  | .file s => .pyStr s

/-- `_ensure_obj` from diazed.py: `Dir`/`File` instances pass through;
exact type `list`, `tuple` or `set` becomes `Dir(x)` (keeping the items
themselves, in iteration order); anything else becomes `File(x)`, whose
payload is `bytes(x)`. -/
def ensureObj : PyVal → Node
  | .pyDir xs => .dir xs
  | .pyFile s => .file s
  | .pyList xs => .dir xs
  | .pyTuple xs => .dir xs
  | .pySet xs => .dir xs
  | .pyStr s => .file (pyBytes (.pyStr s))
  | .pyInt n => .file (pyBytes (.pyInt n))

/-- Python sequence slicing `x[offset : offset + size]` (clipped at both
ends; nonnegative bounds).  Non-sequence values cannot reach the one slice
site (`read`'s fallback slices `.contents`); that branch is the identity. -/
def pySlice : PyVal → Nat → Nat → PyVal
  | .pyStr s, off, sz => .pyStr ((s.drop off).take sz)
  | .pyList xs, off, sz => .pyList ((xs.drop off).take sz)
  | .pyTuple xs, off, sz => .pyTuple ((xs.drop off).take sz)
  | v, _, _ => v

/-- The exceptions the adapter can raise: `fuse.FuseOSError(errno.ENOENT)`,
`fuse.FuseOSError(errno.EROFS)`, a `TypeError` escaping a handler call with
the wrong number of arguments, and an `_UnableToRouteException` escaping
uncaught. -/
inductive FuseErr where
  | enoent
  | erofs
  | typeError
  | unrouted
deriving DecidableEq, Repr

/-- `_DiazedFileSystem` state: per-operation route tables (the
`collections.defaultdict(lambda: [])` of `__init__`) and the handle
counter `fd`. -/
structure FS where
  routes : String → List (List Tok × Handler Node)
  fd : Nat

def FS.empty : FS := { routes := fun _ => [], fd := 0 }

def opReaddir : String := "readdir"
def opReadlink : String := "readlink"
def opOpen : String := "open"
def opRead : String := "read"

/-- `_DiazedFileSystem.on`: compile the template and append
`(pattern, callback)` to the table of `operation`.  Registration performs
no validation of the callback whatsoever. -/
def FS.on (fs : FS) (operation : String) (route : List Char)
    (callback : Handler Node) : FS :=
  { fs with
    routes := fun op =>
      if op = operation then fs.routes op ++ [(compileTemplate route, callback)]
      else fs.routes op }

/-- `_DiazedFileSystem.route`: scan the table of `operation` in
registration order. -/
def FS.route (fs : FS) (operation : String) (path : List Char) :
    Option (Option Node) :=
  routeScan (fs.routes operation) path

/-- `_curry(fn, _ensure_obj)` from `_get_decorator`: call `fn`, then pipe
its return value through `_ensure_obj`.  The curried wrapper takes `*args`,
so the arity accepted is that of `fn` itself. -/
def curryEnsure (h : Handler PyVal) : Handler Node :=
  { minArity := h.minArity, maxArity := h.maxArity
    fn := fun gs => ensureObj (h.fn gs) }

/-- `_get_decorator`'s registration loop: for every path and every
operation, register the curried handler.  It inspects neither the
template's placeholder count nor the function's parameter list. -/
def getDecorator (fs : FS) (operations : List String) (paths : List (List Char))
    (fn : Handler PyVal) : FS :=
  paths.foldl
    (fun acc path =>
      operations.foldl (fun acc2 operation => acc2.on operation path (curryEnsure fn)) acc)
    fs

/-- `_DiazedFileSystem.readlink`: no fallback; an unmatched path lets
`_UnableToRouteException` escape. -/
def FS.readlink (fs : FS) (path : List Char) : Except FuseErr PyVal :=
  match fs.route opReadlink path with
  | some (some n) => .ok n.contents
  | some none => .error .typeError
  | none => .error .unrouted

/-- `_DiazedFileSystem.getattr`: try the readdir table, then (only on
`_UnableToRouteException`) the readlink table, else raise `ENOENT`.  A
`TypeError` from a matched callback is not caught by either `except`. -/
def FS.getattr (fs : FS) (path : List Char) : Except FuseErr Attrs :=
  match fs.route opReaddir path with
  | some (some n) => .ok n.attrs
  | some none => .error .typeError
  | none =>
    match fs.route opReadlink path with
    | some (some n) => .ok n.attrs
    | some none => .error .typeError
    | none => .error .enoent

/-- `_DiazedFileSystem.open` (named `fopen` here because `open` is a Lean
keyword): attempt the `open` route purely for side effects, swallowing
`_UnableToRouteException`; then increment and return the handle counter. -/
def FS.fopen (fs : FS) (path : List Char) : Except FuseErr (Nat × FS) :=
  match fs.route opOpen path with
  | some none => .error .typeError
  | _ => .ok (fs.fd + 1, { fs with fd := fs.fd + 1 })

/-- `_DiazedFileSystem.read`: try the `read` table; on
`_UnableToRouteException` fall back to `self.readlink(path)[offset :
offset + size]`.  A failure of the fallback `readlink` escapes uncaught. -/
def FS.read (fs : FS) (path : List Char) (size offset : Nat) :
    Except FuseErr PyVal :=
  match fs.route opRead path with
  | some (some n) => .ok n.contents
  | some none => .error .typeError
  | none =>
    match fs.readlink path with
    | .ok v => .ok (pySlice v offset size)
    | .error e => .error e

/-- `_DiazedFileSystem._raise_readonlyfs`: `raise fuse.FuseOSError(errno.EROFS)`. -/
def raiseReadonlyfs : Except FuseErr Unit := .error .erofs

/-- The thirteen mutating operations of `_DiazedFileSystem`; each body is
exactly `self._raise_readonlyfs()` and touches nothing else, so each is
modelled as returning the error together with the unchanged state. -/
def FS.create (fs : FS) (path : List Char) (mode : Nat) :
    Except FuseErr Unit × FS := (raiseReadonlyfs, fs)

def FS.write (fs : FS) (path : List Char) (data : PyVal) (offset : Nat) (fh : Nat) :
    Except FuseErr Unit × FS := (raiseReadonlyfs, fs)

def FS.truncate (fs : FS) (path : List Char) (length : Nat) (fh : Option Nat) :
    Except FuseErr Unit × FS := (raiseReadonlyfs, fs)

def FS.unlink (fs : FS) (path : List Char) :
    Except FuseErr Unit × FS := (raiseReadonlyfs, fs)

def FS.chmod (fs : FS) (path : List Char) (mode : Nat) :
    Except FuseErr Unit × FS := (raiseReadonlyfs, fs)

def FS.chown (fs : FS) (path : List Char) (uid gid : Nat) :
    Except FuseErr Unit × FS := (raiseReadonlyfs, fs)

def FS.mkdir (fs : FS) (path : List Char) (mode : Nat) :
    Except FuseErr Unit × FS := (raiseReadonlyfs, fs)

def FS.removexattr (fs : FS) (path name : List Char) :
    Except FuseErr Unit × FS := (raiseReadonlyfs, fs)

def FS.rename (fs : FS) (old new : List Char) :
    Except FuseErr Unit × FS := (raiseReadonlyfs, fs)

def FS.rmdir (fs : FS) (path : List Char) :
    Except FuseErr Unit × FS := (raiseReadonlyfs, fs)

def FS.setxattr (fs : FS) (path name : List Char) (value : PyVal)
    (options position : Nat) : Except FuseErr Unit × FS := (raiseReadonlyfs, fs)

def FS.symlink (fs : FS) (target source : List Char) :
    Except FuseErr Unit × FS := (raiseReadonlyfs, fs)

def FS.utimens (fs : FS) (path : List Char) (times : Option (Nat × Nat)) :
    Except FuseErr Unit × FS := (raiseReadonlyfs, fs)

/-- Test driver: perform a sequence of `open` calls, threading the state
and collecting the returned handles (stopping if one fails). -/
def openSeq : FS → List (List Char) → List Nat × FS
  | fs, [] => ([], fs)
  | fs, p :: ps =>
    match fs.fopen p with
    | .ok (h, fs') =>
      let r := openSeq fs' ps
      (h :: r.1, r.2)
    | .error _ => ([], fs)

/-- The data-model invariant of a Route (spec §3): every handler registered
in the `open` table accepts exactly as many positional arguments as its
template has placeholders, so a matched call never raises `TypeError`.
Every registration in the repository satisfies it. -/
def WFOpen (fs : FS) : Prop :=
  ∀ r ∈ fs.routes opOpen, r.2.minArity ≤ holeCount r.1 ∧ holeCount r.1 ≤ r.2.maxArity

/-- Outcome of one call to a `cache(timedelta)`-wrapped function: the
returned (or raised) value, the cache state after the call, and whether
the wrapped function was invoked. -/
structure CacheOut (κ α ε : Type) where
  result : Except ε α
  state : κ → Option (α × Nat)
  invoked : Bool

/-- Pointwise dictionary update. -/
def mapUpd {κ β : Type} [DecidableEq κ] (st : κ → Option β) (key : κ)
    (v : Option β) : κ → Option β :=
  fun k => if k = key then v else st k

/-- One call through the `_cache` closure of `mondofs.decorators.cache`.

The source keys two dicts, `cache` and `cache_expiry`, by
`json.dumps(args) + json.dumps(kwargs)` — a deterministic encoding of the
call's arguments, modelled as the abstract key `key`.  The two dicts are
written in lockstep (cleared together at lines 55–56, written together at
lines 58–59), so they are modelled as one map to `(value, expiry)`; an
entry cleared to `None` is indistinguishable from an absent one under the
`.get(key, None)` read and the `if expires:` truthiness test, so clearing
is modelled as removal.  `t1` is the `datetime.datetime.now()` of the
expiry comparison (line 52, strict `<`); `t2` is the
`datetime.datetime.now()` taken after `fn` returns (line 59), so the
stored expiry is `t2 + ttl`.  `fn` is the (pre-evaluated, since the model
is pure) outcome of invoking the wrapped function; when it raises, the
exception propagates after the expired entry has already been cleared. -/
def cacheCall {κ α ε : Type} [DecidableEq κ] (fn : Except ε α) (ttl : Nat)
    (st : κ → Option (α × Nat)) (key : κ) (t1 t2 : Nat) : CacheOut κ α ε :=
  match st key with
  | some (v, expires) =>
    if t1 < expires then
      { result := .ok v, state := st, invoked := false }
    else
      match fn with
      | .ok r =>
        { result := .ok r, state := mapUpd st key (some (r, t2 + ttl)), invoked := true }
      | .error e =>
        { result := .error e, state := mapUpd st key none, invoked := true }
  | none =>
    match fn with
    | .ok r =>
      { result := .ok r, state := mapUpd st key (some (r, t2 + ttl)), invoked := true }
    | .error e => { result := .error e, state := st, invoked := true }

/-! Concrete fixtures used by the witnesses and counterexamples below. -/

def tmplA : List Char := "/<a>".data
def tmplB : List Char := "/<b>".data
def tmplDot : List Char := "/a.b".data
def tmplF : List Char := "/f".data
def tmplH : List Char := "/h".data
def pathRoot : List Char := "/".data
def pathX : List Char := "/x".data
def pathAXb : List Char := "/aXb".data
def pathF : List Char := "/f".data
def pathH : List Char := "/h".data

def handlerA : Handler Nat := { minArity := 1, maxArity := 1, fn := fun _ => 1 }
def handlerB : Handler Nat := { minArity := 1, maxArity := 1, fn := fun _ => 2 }
def handlerZero : Handler PyVal := { minArity := 0, maxArity := 0, fn := fun _ => .pyInt 0 }
def handlerHi : Handler Node :=
  { minArity := 0, maxArity := 0, fn := fun _ => .file ['h', 'i'] }
def handlerHello : Handler Node :=
  { minArity := 0, maxArity := 0, fn := fun _ => .file ['h', 'e', 'l', 'l', 'o'] }


/-! Lemmas about the pattern matcher. -/

theorem pred_of_mem_take {α : Type} {p : α → Bool} :
    ∀ {l : List α} {k : Nat}, k ≤ (l.takeWhile p).length → ∀ c ∈ l.take k, p c := by
  intro l
  induction l with
  | nil => intro k _ c hc; simp at hc
  | cons a l ih =>
    intro k hk c hc
    cases k with
    | zero => simp at hc
    | succ k =>
      rw [List.takeWhile_cons] at hk
      by_cases hpa : p a
      · simp only [if_pos hpa, List.length_cons, Nat.succ_le_succ_iff] at hk
        simp only [List.take_succ_cons, List.mem_cons] at hc
        rcases hc with rfl | hc
        · exact hpa
        · exact ih hk c hc
      · simp [if_neg hpa] at hk

theorem le_takeWhile_length {α : Type} {p : α → Bool} :
    ∀ {pre : List α} (rest : List α), (∀ c ∈ pre, p c) →
      pre.length ≤ (List.takeWhile p (pre ++ rest)).length := by
  intro pre
  induction pre with
  | nil => simp
  | cons a l ih =>
    intro rest h
    have hpa : p a := h a (List.mem_cons_self a l)
    rw [List.cons_append, List.takeWhile_cons, if_pos hpa, List.length_cons,
      List.length_cons, Nat.succ_le_succ_iff]
    exact ih rest fun c hc => h c (List.mem_cons_of_mem a hc)

theorem mem_holeSplits {ps : List Char} {pr : List Char × List Char}
    (h : pr ∈ holeSplits ps) : pr.1 ++ pr.2 = ps ∧ ∀ c ∈ pr.1, c ≠ '/' := by
  unfold holeSplits at h
  rw [List.mem_map] at h
  obtain ⟨k, hk, heq⟩ := h
  rw [List.mem_reverse, List.mem_range, Nat.lt_succ_iff] at hk
  subst heq
  refine ⟨List.take_append_drop k ps, fun c hc => ?_⟩
  have := pred_of_mem_take hk c hc
  simpa using this

theorem holeSplits_mem {ps pre rest : List Char}
    (hsplit : pre ++ rest = ps) (hpre : ∀ c ∈ pre, c ≠ '/') :
    (pre, rest) ∈ holeSplits ps := by
  unfold holeSplits
  rw [List.mem_map]
  refine ⟨pre.length, ?_, ?_⟩
  · rw [List.mem_reverse, List.mem_range, Nat.lt_succ_iff]
    subst hsplit
    exact le_takeWhile_length rest fun c hc => by simpa using hpre c hc
  · subst hsplit
    rw [List.take_left, List.drop_left]

/-- Soundness of the greedy matcher: a successful `reMatch` yields a genuine
ordered decomposition of the whole path. -/
theorem reMatch_sound :
    ∀ {toks : List Tok} {ps : List Char} {gs : List (List Char)},
      reMatch toks ps = some gs → Caps toks ps gs := by
  intro toks
  induction toks with
  | nil =>
    intro ps gs h
    cases ps with
    | nil => simp only [reMatch, Option.some.injEq] at h; subst h; exact Caps.nil
    | cons p ps => simp [reMatch] at h
  | cons t ts ih =>
    intro ps gs h
    cases t with
    | lit c =>
      cases ps with
      | nil => simp [reMatch] at h
      | cons p ps' =>
        rw [reMatch] at h
        by_cases hm : litMatch c p
        · rw [if_pos hm] at h
          exact Caps.lit hm (ih h)
        · rw [if_neg hm] at h
          cases h
    | hole =>
      rw [reMatch] at h
      obtain ⟨pr, hmem, hpr⟩ := List.exists_of_findSome?_eq_some h
      obtain ⟨gs', hgs', hcons⟩ := Option.map_eq_some'.mp hpr
      obtain ⟨hsplit, hpre⟩ := mem_holeSplits hmem
      subst hcons
      rw [← hsplit]
      exact Caps.hole hpre (ih hgs')

/-- Completeness of the greedy matcher: any ordered decomposition of the
path implies the matcher succeeds (with some, possibly different, captures
— the greedy engine prefers the longest leftmost capture). -/
theorem reMatch_complete :
    ∀ {toks : List Tok} {ps : List Char} {gs : List (List Char)},
      Caps toks ps gs → (reMatch toks ps).isSome := by
  intro toks ps gs h
  induction h with
  | nil => simp [reMatch]
  | lit hm _ ih =>
    rw [reMatch, if_pos hm]
    exact ih
  | @hole ts pre rest gs' hpre _ ih =>
    rw [reMatch]
    obtain ⟨gs'', hgs''⟩ := Option.isSome_iff_exists.mp ih
    cases hfind : (holeSplits (pre ++ rest)).findSome? fun pr =>
        (reMatch ts pr.2).map fun gs => pr.1 :: gs with
    | some v => simp
    | none =>
      rw [List.findSome?_eq_none_iff] at hfind
      have := hfind (pre, rest) (holeSplits_mem rfl hpre)
      rw [hgs''] at this
      simp at this

/-- The capture list of a match has exactly one entry per placeholder. -/
theorem Caps.groups_length :
    ∀ {toks : List Tok} {ps : List Char} {gs : List (List Char)},
      Caps toks ps gs → gs.length = holeCount toks := by
  intro toks ps gs h
  induction h with
  | nil => rfl
  | lit _ _ ih => simpa [holeCount] using ih
  | hole _ _ ih => simp [holeCount, ih]

theorem reMatch_groups_length {toks : List Tok} {ps : List Char}
    {gs : List (List Char)} (h : reMatch toks ps = some gs) :
    gs.length = holeCount toks :=
  (reMatch_sound h).groups_length

/-! Claim theorems. -/

/-- Claim C2 counterexample.  The claim asserts that each placeholder
matches one or more characters and that every character outside a
placeholder matches itself literally.  Both parts fail on the code: the
compiled group is `([^/]*)` — zero or more — so the pattern for `/<a>`
matches the path `/` with an empty capture; and template characters are
spliced into the regex unescaped, so the `'.'` of template `/a.b` matches
the path character `'X'`. -/
theorem pattern_literal_counterexample :
    reMatch (compileTemplate tmplA) pathRoot = some [[]]
    ∧ reMatch (compileTemplate tmplDot) pathAXb = some [] := by
  exact ⟨by decide, by decide⟩

/-- Claim C2 (amended): the compiled matcher is anchored at both start and
end — it succeeds exactly on the paths that decompose, in full, into the
template's tokens — where each `<name>` placeholder matches zero or more
characters excluding the separator `'/'`, and each character outside a
placeholder is matched as regex text (so `'.'` matches any character other
than a newline, and every non-metacharacter matches itself). -/
theorem reMatch_anchored_characterization (toks : List Tok) (ps : List Char) :
    (reMatch toks ps).isSome ↔ ∃ gs, Caps toks ps gs := by
  constructor
  · intro h
    obtain ⟨gs, hgs⟩ := Option.isSome_iff_exists.mp h
    exact ⟨gs, reMatch_sound hgs⟩
  · rintro ⟨gs, hgs⟩
    exact reMatch_complete hgs

/-- Witness for the amended C2 at a concrete template and path. -/
theorem reMatch_anchored_characterization_witness :
    ∃ gs, Caps (compileTemplate tmplA) pathX gs :=
  (reMatch_anchored_characterization (compileTemplate tmplA) pathX).mp (by decide)

/-- Claim C4 counterexample.  The claim says a collection is wrapped as a
Directory whose entries are the string form of each item; `Dir` in fact
stores the items unconverted: `_ensure_obj([1])` keeps the integer `1`,
which is not the string `"1"`. -/
theorem ensureObj_counterexample :
    ensureObj (.pyList [.pyInt 1]) = .dir [.pyInt 1]
    ∧ PyVal.pyInt 1 ≠ PyVal.pyStr ['1'] :=
  ⟨rfl, fun h => PyVal.noConfusion h⟩

/-- Claim C4 (amended): `_ensure_obj` returns `Dir`/`File` instances
unchanged; wraps a `list`, `tuple` or `set` as a `Dir` whose entries are
the items themselves, unconverted and in iteration order (so for a list of
strings the listing is exactly those strings); and wraps any other value
as a `File` whose payload is `bytes(value)` with `st_size` equal to the
byte length (so `_ensure_obj(42)` has payload `"42"`). -/
theorem ensureObj_spec :
    (∀ xs, ensureObj (.pyDir xs) = .dir xs)
    ∧ (∀ s, ensureObj (.pyFile s) = .file s)
    ∧ (∀ xs, ensureObj (.pyList xs) = .dir xs)
    ∧ (∀ xs, ensureObj (.pyTuple xs) = .dir xs)
    ∧ (∀ xs, ensureObj (.pySet xs) = .dir xs)
    ∧ (∀ s, ensureObj (.pyStr s) = .file s)
    ∧ (∀ n, ensureObj (.pyInt n) = .file (toString n).data)
    ∧ (∀ s, (Node.file s).attrs.st_size = some s.length)
    ∧ ensureObj (.pyList [.pyStr ['a'], .pyStr ['b']]) = .dir [.pyStr ['a'], .pyStr ['b']]
    ∧ ensureObj (.pyInt 42) = .file ['4', '2'] := by
  refine ⟨fun xs => rfl, fun s => rfl, fun xs => rfl, fun xs => rfl, fun xs => rfl,
    fun s => rfl, fun n => rfl, fun s => rfl, rfl, rfl⟩

/-- Claim C8: each of the thirteen mutating operations (the spec's list —
which it counts as twelve — names create, write, truncate, unlink, chmod,
chown, mkdir, removexattr, rename, rmdir, setxattr, symlink, utimens), on
any path and any filesystem state, raises the one fixed read-only error
`EROFS` and leaves the state (route tables and handle counter) unchanged. -/
theorem readonly_ops_spec :
    ∀ (fs : FS) (path name old new target source : List Char)
      (data value : PyVal) (mode uid gid offset fh len options position : Nat)
      (ofh : Option Nat) (times : Option (Nat × Nat)),
      fs.create path mode = (Except.error FuseErr.erofs, fs)
      ∧ fs.write path data offset fh = (Except.error FuseErr.erofs, fs)
      ∧ fs.truncate path len ofh = (Except.error FuseErr.erofs, fs)
      ∧ fs.unlink path = (Except.error FuseErr.erofs, fs)
      ∧ fs.chmod path mode = (Except.error FuseErr.erofs, fs)
      ∧ fs.chown path uid gid = (Except.error FuseErr.erofs, fs)
      ∧ fs.mkdir path mode = (Except.error FuseErr.erofs, fs)
      ∧ fs.removexattr path name = (Except.error FuseErr.erofs, fs)
      ∧ fs.rename old new = (Except.error FuseErr.erofs, fs)
      ∧ fs.rmdir path = (Except.error FuseErr.erofs, fs)
      ∧ fs.setxattr path name value options position = (Except.error FuseErr.erofs, fs)
      ∧ fs.symlink target source = (Except.error FuseErr.erofs, fs)
      ∧ fs.utimens path times = (Except.error FuseErr.erofs, fs) := by
  intros
  exact ⟨rfl, rfl, rfl, rfl, rfl, rfl, rfl, rfl, rfl, rfl, rfl, rfl, rfl⟩

/-- Claim C1: dispatch scans the operation's route table in registration
order and the first pattern whose anchored form fully matches the path
wins: its handler is called with the ordered capture substrings as
positional arguments — exactly `holeCount` many, decomposing the path left
to right (`Caps`) — while a non-matching head route defers to the rest of
the table unchanged, so a later route is reachable only when every earlier
pattern fails to match. -/
theorem dispatch_first_match_spec {α : Type} (p : List Tok) (h : Handler α)
    (rs : List (List Tok × Handler α)) (path : List Char) :
    (∀ gs, reMatch p path = some gs →
        routeScan ((p, h) :: rs) path = some (callHandler h gs)
        ∧ gs.length = holeCount p ∧ Caps p path gs)
    ∧ (reMatch p path = none → routeScan ((p, h) :: rs) path = routeScan rs path) := by
  constructor
  · intro gs hgs
    refine ⟨?_, reMatch_groups_length hgs, reMatch_sound hgs⟩
    rw [routeScan, List.findSome?_cons]
    simp only [hgs, Option.map_some']
  · intro hnone
    rw [routeScan, List.findSome?_cons]
    simp only [hnone, Option.map_none']
    rfl

/-- Witness for C1: registering `/<a>` then `/<b>` for the same operation
and dispatching `/x` invokes the handler bound to `/<a>` (value 1) with
the single capture `"x"`, and never the handler bound to `/<b>` (value
2). -/
theorem dispatch_first_match_witness :
    routeScan [(compileTemplate tmplA, handlerA), (compileTemplate tmplB, handlerB)]
        pathX = some (some 1)
    ∧ routeScan [(compileTemplate tmplA, handlerA), (compileTemplate tmplB, handlerB)]
        pathX ≠ some (some 2)
    ∧ [['x']].length = holeCount (compileTemplate tmplA) := by
  have h := (dispatch_first_match_spec (compileTemplate tmplA) handlerA
      [(compileTemplate tmplB, handlerB)] pathX).1 [['x']] (by decide)
  refine ⟨?_, ?_, h.2.1⟩
  · rw [h.1]; rfl
  · rw [h.1]; decide

/-- Claim C3 counterexample.  The claim says registration fails at
construction time when the handler's parameter count differs from the
template's placeholder count.  In fact `_get_decorator`/`on` have no
failure path: registering a zero-parameter handler against the
one-placeholder template `/<a>` succeeds (one route is appended), and the
mismatch surfaces only when dispatch matches the route and the call itself
raises `TypeError` (the inner `none`). -/
theorem registration_no_arity_check_counterexample :
    ((getDecorator FS.empty [opReaddir] [tmplA] handlerZero).routes opReaddir).length = 1
    ∧ (getDecorator FS.empty [opReaddir] [tmplA] handlerZero).route opReaddir pathX
        = some none := by
  exact ⟨rfl, rfl⟩

/-- Claim C3 (amended): registration performs no arity validation —
`on` always succeeds, appending exactly one route to the chosen
operation's table — and a registered route whose handler cannot accept the
template's placeholder count fails only at dispatch time: when the pattern
matches, the call raises a `TypeError` instead of returning a value. -/
theorem registration_unchecked_arity_spec (fs : FS) (operation : String)
    (tmpl : List Char) (cb : Handler Node) (path : List Char) :
    ((fs.on operation tmpl cb).routes operation
        = fs.routes operation ++ [(compileTemplate tmpl, cb)])
    ∧ (∀ gs, reMatch (compileTemplate tmpl) path = some gs →
        ¬(cb.minArity ≤ holeCount (compileTemplate tmpl)
            ∧ holeCount (compileTemplate tmpl) ≤ cb.maxArity) →
        routeScan [(compileTemplate tmpl, cb)] path = some none) := by
  constructor
  · simp [FS.on]
  · intro gs hgs hbad
    rw [routeScan, List.findSome?_cons]
    simp only [hgs, Option.map_some']
    rw [callHandler, if_neg]
    rw [reMatch_groups_length hgs]
    exact hbad

/-- Witness for the amended C3 at a concrete mismatched registration. -/
theorem registration_unchecked_arity_witness :
    (FS.empty.on opReaddir tmplA (curryEnsure handlerZero)).routes opReaddir
        = [(compileTemplate tmplA, curryEnsure handlerZero)]
    ∧ routeScan [(compileTemplate tmplA, curryEnsure handlerZero)] pathX = some none := by
  have h := registration_unchecked_arity_spec FS.empty opReaddir tmplA
      (curryEnsure handlerZero) pathX
  exact ⟨h.1, h.2 [['x']] (by decide) (by decide)⟩

/-- Claim C6: `getattr` first tries the readdir table; on route failure it
tries the readlink table; it reports `ENOENT` exactly when both fail to
route; and a path routed only through the readlink table to a `File` node
yields the synthesized regular-file attributes, which no directory's
attributes equal. -/
theorem getattr_fallback_spec (fs : FS) (path : List Char) :
    (∀ n, fs.route opReaddir path = some (some n) → fs.getattr path = .ok n.attrs)
    ∧ (fs.route opReaddir path = none →
        ∀ n, fs.route opReadlink path = some (some n) → fs.getattr path = .ok n.attrs)
    ∧ (fs.getattr path = .error .enoent ↔
        fs.route opReaddir path = none ∧ fs.route opReadlink path = none)
    ∧ (∀ s xs, fs.route opReaddir path = none →
        fs.route opReadlink path = some (some (.file s)) →
        fs.getattr path = .ok { st_mode := 0o100444, st_size := some s.length }
        ∧ (Node.dir xs).attrs ≠ { st_mode := 0o100444, st_size := some s.length }) := by
  refine ⟨?_, ?_, ?_, ?_⟩
  · intro n h
    simp only [FS.getattr, h]
  · intro h n h2
    simp only [FS.getattr, h, h2]
  · constructor
    · intro h
      cases hrd : fs.route opReaddir path with
      | some o =>
        cases o with
        | some n => simp only [FS.getattr, hrd] at h; cases h
        | none => simp only [FS.getattr, hrd] at h; cases h
      | none =>
        refine ⟨rfl, ?_⟩
        cases hrl : fs.route opReadlink path with
        | some o =>
          cases o with
          | some n => simp only [FS.getattr, hrd, hrl] at h; cases h
          | none => simp only [FS.getattr, hrd, hrl] at h; cases h
        | none => rfl
    · rintro ⟨h1, h2⟩
      simp only [FS.getattr, h1, h2]
  · intro s xs h1 h2
    constructor
    · simp only [FS.getattr, h1, h2, Node.attrs]
    · simp [Node.attrs]

/-- Witness for C6: a filesystem whose only route is a readlink route to a
two-byte file gives `getattr` the regular-file attributes for that path,
and the empty filesystem reports `ENOENT` everywhere. -/
theorem getattr_fallback_witness :
    (FS.empty.on opReadlink tmplF handlerHi).getattr pathF
      = .ok { st_mode := 0o100444, st_size := some 2 }
    ∧ FS.empty.getattr pathF = Except.error FuseErr.enoent := by
  constructor
  · exact ((getattr_fallback_spec (FS.empty.on opReadlink tmplF handlerHi) pathF).2.2.2
      ['h', 'i'] [] rfl rfl).1
  · exact (getattr_fallback_spec FS.empty pathF).2.2.1.mpr ⟨rfl, rfl⟩

/-- Claim C7: on a path with no `read` route but a readlink route to a
`File` with payload `payload`, `read` returns exactly the byte range
`[offset, offset + size)` of the payload: the Python slice
`payload[offset : offset + size]`, whose length is
`min size (length - offset)`, which is empty once `offset` reaches the
payload length, and which is a contiguous piece of the payload (it never
reads past the end). -/
theorem read_fallback_spec (fs : FS) (path : List Char) (size offset : Nat)
    (payload : List Char)
    (hread : fs.route opRead path = none)
    (hlink : fs.route opReadlink path = some (some (.file payload))) :
    fs.read path size offset = .ok (.pyStr ((payload.drop offset).take size))
    ∧ ((payload.drop offset).take size).length = min size (payload.length - offset)
    ∧ (payload.length ≤ offset → (payload.drop offset).take size = [])
    ∧ ∃ u v, u ++ ((payload.drop offset).take size) ++ v = payload := by
  refine ⟨?_, ?_, ?_, ?_⟩
  · simp only [FS.read, hread, FS.readlink, hlink, Node.contents, pySlice]
  · rw [List.length_take, List.length_drop]
  · intro hle
    rw [List.drop_eq_nil_of_le hle, List.take_nil]
  · refine ⟨payload.take offset, (payload.drop offset).drop size, ?_⟩
    rw [List.append_assoc, List.take_append_drop size (payload.drop offset),
      List.take_append_drop offset payload]

/-- Witness for C7: payload `"hello"` with `offset = 2`, `size = 3` yields
`"llo"`. -/
theorem read_fallback_witness :
    (FS.empty.on opReadlink tmplH handlerHello).read pathH 3 2
      = .ok (.pyStr ['l', 'l', 'o'])
    ∧ (((['h', 'e', 'l', 'l', 'o'] : List Char).drop 2).take 3).length = 3 := by
  have h := read_fallback_spec (FS.empty.on opReadlink tmplH handlerHello) pathH 3 2
    ['h', 'e', 'l', 'l', 'o'] rfl rfl
  exact ⟨h.1, h.2.1⟩

/-- With well-formed `open` handlers, dispatch on the `open` table never
raises `TypeError`. -/
theorem route_open_no_typeError {fs : FS} (wf : WFOpen fs) (path : List Char) :
    fs.route opOpen path ≠ some none := by
  intro h
  simp only [FS.route, routeScan] at h
  obtain ⟨r, hmem, hr⟩ := List.exists_of_findSome?_eq_some h
  obtain ⟨gs, hgs, hcall⟩ := Option.map_eq_some'.mp hr
  have hlen := reMatch_groups_length hgs
  have hwf := wf r hmem
  rw [callHandler, if_pos] at hcall
  · cases hcall
  · rw [hlen]
    exact hwf

/-- With well-formed `open` handlers, `open` always succeeds and returns
the incremented handle counter. -/
theorem fopen_ok {fs : FS} (wf : WFOpen fs) (path : List Char) :
    fs.fopen path = .ok (fs.fd + 1, { fs with fd := fs.fd + 1 }) := by
  rw [FS.fopen]
  cases hro : fs.route opOpen path with
  | none => rfl
  | some o =>
    cases o with
    | some n => rfl
    | none => exact absurd hro (route_open_no_typeError wf path)

/-- With well-formed `open` handlers, a sequence of `open` calls returns
the consecutive handles `fd + 1, fd + 2, …`. -/
theorem openSeq_handles {fs : FS} (wf : WFOpen fs) (paths : List (List Char)) :
    (openSeq fs paths).1 = List.range' (fs.fd + 1) paths.length := by
  induction paths generalizing fs with
  | nil => rfl
  | cons p ps ih =>
    rw [openSeq, fopen_ok wf p]
    have wf' : WFOpen { fs with fd := fs.fd + 1 } := wf
    rw [List.length_cons, List.range'_succ]
    simp only [ih wf']

/-- Claim C9: `open` never fails merely because the path matches no `open`
route (a route miss is swallowed), and — given the Route invariant for the
`open` table — every call allocates and returns the next handle: a
sequence of N opens over any paths returns N handles, equal to the
consecutive integers after the current counter, strictly increasing,
pairwise distinct, and all strictly beyond every previously issued handle
(the counter only grows, so no handle is ever reused). -/
theorem open_handles_spec (fs : FS) (paths : List (List Char)) (wf : WFOpen fs) :
    (∀ path, fs.route opOpen path = none →
        fs.fopen path = .ok (fs.fd + 1, { fs with fd := fs.fd + 1 }))
    ∧ (openSeq fs paths).1 = List.range' (fs.fd + 1) paths.length
    ∧ (openSeq fs paths).1.length = paths.length
    ∧ List.Pairwise (fun a b => a < b) (openSeq fs paths).1
    ∧ (openSeq fs paths).1.Nodup
    ∧ ∀ h ∈ (openSeq fs paths).1, fs.fd < h := by
  have hseq := openSeq_handles wf paths
  refine ⟨fun path _ => fopen_ok wf path, hseq, ?_, ?_, ?_, ?_⟩
  · rw [hseq, List.length_range']
  · rw [hseq]
    exact List.pairwise_lt_range' (fs.fd + 1) paths.length
  · rw [hseq]
    exact List.nodup_range' (fs.fd + 1) paths.length
  · intro h hmem
    rw [hseq] at hmem
    have := (List.mem_range'_1.mp hmem).1
    omega

/-- Witness for C9: three opens on the empty filesystem return the
handles 1, 2, 3. -/
theorem open_handles_witness :
    (openSeq FS.empty [pathX, pathF, pathH]).1 = [1, 2, 3]
    ∧ FS.empty.fopen pathX = .ok (1, { FS.empty with fd := 1 }) := by
  have wf : WFOpen FS.empty := by
    intro r hr
    exact absurd hr (List.not_mem_nil r)
  have h := open_handles_spec FS.empty [pathX, pathF, pathH] wf
  exact ⟨h.2.1, h.1 pathX rfl⟩

/-- Claim C5: a call whose key holds an entry with expiry strictly in the
future returns the stored value without invoking the handler; a call with
no entry, or an expired one, invokes the handler, stores the result with
expiry `now + ttl`, and returns it.  Consequently for a stored result, a
repeat identical-argument call before the expiry returns the identical
cached value without re-invocation, and any call at or after the expiry —
which for `ttl = 0` is every later call under a monotone clock —
re-invokes the handler. -/
theorem cacheCall_ttl_spec {κ α ε : Type} [DecidableEq κ] (fn : Except ε α)
    (ttl : Nat) (st : κ → Option (α × Nat)) (key : κ) (t1 t2 : Nat) :
    (∀ v e, st key = some (v, e) → t1 < e →
        cacheCall fn ttl st key t1 t2
          = { result := .ok v, state := st, invoked := false })
    ∧ (∀ r, st key = none → fn = .ok r →
        cacheCall fn ttl st key t1 t2
          = { result := .ok r, state := mapUpd st key (some (r, t2 + ttl)),
              invoked := true })
    ∧ (∀ v e r, st key = some (v, e) → e ≤ t1 → fn = .ok r →
        cacheCall fn ttl st key t1 t2
          = { result := .ok r, state := mapUpd st key (some (r, t2 + ttl)),
              invoked := true })
    ∧ (∀ r (fn' : Except ε α) t1' t2', st key = none → fn = .ok r →
        (t1' < t2 + ttl →
          cacheCall fn' ttl (cacheCall fn ttl st key t1 t2).state key t1' t2'
            = { result := .ok r, state := (cacheCall fn ttl st key t1 t2).state,
                invoked := false })
        ∧ (t2 + ttl ≤ t1' →
          (cacheCall fn' ttl (cacheCall fn ttl st key t1 t2).state key t1' t2').invoked
            = true)) := by
  refine ⟨?_, ?_, ?_, ?_⟩
  · intro v e hst hlt
    simp only [cacheCall, hst]
    rw [if_pos hlt]
  · intro r hst hfn
    subst hfn
    simp only [cacheCall, hst]
  · intro v e r hst hle hfn
    subst hfn
    simp only [cacheCall, hst]
    rw [if_neg (Nat.not_lt.mpr hle)]
  · intro r fn' t1' t2' hst hfn
    subst hfn
    have hkey : (cacheCall (Except.ok r : Except ε α) ttl st key t1 t2).state key
        = some (r, t2 + ttl) := by
      simp only [cacheCall, hst]
      rw [mapUpd, if_pos rfl]
    constructor
    · intro hlt
      generalize hgen : (cacheCall (Except.ok r : Except ε α) ttl st key t1 t2).state = st2 at hkey ⊢
      simp only [cacheCall, hkey]
      rw [if_pos hlt]
    · intro hge
      generalize hgen : (cacheCall (Except.ok r : Except ε α) ttl st key t1 t2).state = st2 at hkey ⊢
      simp only [cacheCall, hkey]
      rw [if_neg (Nat.not_lt.mpr hge)]
      cases fn' <;> rfl

/-- Witness for C5: on an empty cache a call computes 7 and stores it with
expiry 10; a repeat call at time 5 returns the cached 7 without invoking;
with `ttl = 0` a repeat call at time 3 re-invokes. -/
theorem cacheCall_ttl_witness :
    (cacheCall (Except.ok 7 : Except Unit Nat) 10 (fun _ : Nat => none) 0 0 0).result
      = Except.ok 7
    ∧ (cacheCall (Except.ok 9 : Except Unit Nat) 10
        (cacheCall (Except.ok 7 : Except Unit Nat) 10 (fun _ : Nat => none) 0 0 0).state
        0 5 5).result = Except.ok 7
    ∧ (cacheCall (Except.ok 9 : Except Unit Nat) 10
        (cacheCall (Except.ok 7 : Except Unit Nat) 10 (fun _ : Nat => none) 0 0 0).state
        0 5 5).invoked = false
    ∧ (cacheCall (Except.ok 9 : Except Unit Nat) 0
        (cacheCall (Except.ok 7 : Except Unit Nat) 0 (fun _ : Nat => none) 0 0 0).state
        0 3 3).invoked = true := by
  have h1 := (cacheCall_ttl_spec (Except.ok 7 : Except Unit Nat) 10
      (fun _ : Nat => none) 0 0 0).2.1 7 rfl rfl
  have h4 := (cacheCall_ttl_spec (Except.ok 7 : Except Unit Nat) 10
      (fun _ : Nat => none) 0 0 0).2.2.2 7 (Except.ok 9 : Except Unit Nat) 5 5 rfl rfl
  have h0 := (cacheCall_ttl_spec (Except.ok 7 : Except Unit Nat) 0
      (fun _ : Nat => none) 0 0 0).2.2.2 7 (Except.ok 9 : Except Unit Nat) 3 3 rfl rfl
  refine ⟨by rw [h1], ?_, ?_, ?_⟩
  · rw [h4.1 (by norm_num)]
  · rw [h4.1 (by norm_num)]
  · exact h0.2 (by norm_num)

/-- Claim C10: when the wrapped handler raises on a call that found no
unexpired entry (no entry at all, or an expired one — which is cleared
before the re-invocation), the exception propagates, no valid entry is
left for that key, and the next identical-argument call re-invokes the
handler: an exception never causes a later call to be served from the
cache. -/
theorem cacheCall_error_spec {κ α ε : Type} [DecidableEq κ] (ttl : Nat)
    (st : κ → Option (α × Nat)) (key : κ) (t1 t2 : Nat) (e : ε)
    (hexp : ∀ v ex, st key = some (v, ex) → ex ≤ t1) :
    (cacheCall (Except.error e) ttl st key t1 t2).result = Except.error e
    ∧ (cacheCall (Except.error e) ttl st key t1 t2).state key = none
    ∧ (cacheCall (Except.error e) ttl st key t1 t2).invoked = true
    ∧ ∀ (fn' : Except ε α) (t1' t2' : Nat),
        (cacheCall fn' ttl (cacheCall (Except.error e) ttl st key t1 t2).state
          key t1' t2').invoked = true := by
  cases hst : st key with
  | none =>
    have hred : cacheCall (Except.error e) ttl st key t1 t2
        = { result := .error e, state := st, invoked := true } := by
      simp only [cacheCall, hst]
    rw [hred]
    refine ⟨rfl, hst, rfl, ?_⟩
    intro fn' t1' t2'
    simp only [cacheCall, hst]
    cases fn' <;> rfl
  | some ve =>
    obtain ⟨v, ex⟩ := ve
    have hle := hexp v ex hst
    have hred : cacheCall (Except.error e) ttl st key t1 t2
        = { result := .error e, state := mapUpd st key none, invoked := true } := by
      simp only [cacheCall, hst]
      rw [if_neg (Nat.not_lt.mpr hle)]
    have hkey : mapUpd st key (none : Option (α × Nat)) key = none := by
      rw [mapUpd, if_pos rfl]
    rw [hred]
    refine ⟨rfl, hkey, rfl, ?_⟩
    intro fn' t1' t2'
    simp only [cacheCall, hkey]
    cases fn' <;> rfl

/-- Witness for C10: a raising first call on an empty cache propagates the
error, leaves no entry, and a repeat call re-invokes. -/
theorem cacheCall_error_witness :
    (cacheCall (Except.error () : Except Unit Nat) 5 (fun _ : Nat => none) 0 0 0).result
      = Except.error ()
    ∧ (cacheCall (Except.error () : Except Unit Nat) 5 (fun _ : Nat => none) 0 0 0).state 0
      = none
    ∧ (cacheCall (Except.ok 3 : Except Unit Nat) 5
        (cacheCall (Except.error () : Except Unit Nat) 5 (fun _ : Nat => none) 0 0 0).state
        0 9 9).invoked = true := by
  have h := cacheCall_error_spec 5 (fun _ : Nat => (none : Option (Nat × Nat))) 0 0 0 ()
      (fun v ex hx => Option.noConfusion hx)
  exact ⟨h.1, h.2.1, h.2.2.2 (Except.ok 3 : Except Unit Nat) 9 9⟩
